import Mathlib

/-!
Shallow embedding of the card-core repository: the Card/Suit/Rank data
model (src/src/cards.rs), the Deck (src/src/deck.rs), and the blackjack
evaluator and table of the blackjack example (src/examples/blackjack/src/main.rs).

Machine integers (u8, usize) are modelled as Nat with explicit wrap-around
(% 256, % 2^64) at the points where the source arithmetic can overflow
(release-build wrapping semantics).  Fallible operations return Option;
where a source function panics (unwrap, joker assertion, out-of-range
index) the embedding returns none, noted at each definition.
-/

namespace CardCore

/-- Suit enum from src/src/cards.rs; `None` is the sentinel for an
invalid/absent suit. -/
inductive Suit
  | Clubs
  | Diamonds
  | Hearts
  | Spades
  | None
deriving DecidableEq

/-- Rank enum from src/src/cards.rs; `Joker` is the sentinel rank. -/
inductive Rank
  | Ace
  | Two
  | Three
  | Four
  | Five
  | Six
  | Seven
  | Eight
  | Nine
  | Ten
  | Jack
  | Queen
  | King
  | Joker
deriving DecidableEq

/-- Suit::to_ordinal. -/
def Suit.to_ordinal : Suit → Nat
  | .Clubs => 0
  | .Diamonds => 1
  | .Hearts => 2
  | .Spades => 3
  | .None => 4

/-- Suit::from_ordinal. -/
def Suit.from_ordinal (suit : Nat) : Suit :=
  match suit with
  | 0 => .Clubs
  | 1 => .Diamonds
  | 2 => .Hearts
  | 3 => .Spades
  | _ => .None

/-- Rank::to_ordinal. -/
def Rank.to_ordinal : Rank → Nat
  | .Ace => 0
  | .Two => 1
  | .Three => 2
  | .Four => 3
  | .Five => 4
  | .Six => 5
  | .Seven => 6
  | .Eight => 7
  | .Nine => 8
  | .Ten => 9
  | .Jack => 10
  | .Queen => 11
  | .King => 12
  | .Joker => 13

/-- Rank::from_ordinal. -/
def Rank.from_ordinal (rank : Nat) : Rank :=
  match rank with
  | 0 => .Ace
  | 1 => .Two
  | 2 => .Three
  | 3 => .Four
  | 4 => .Five
  | 5 => .Six
  | 6 => .Seven
  | 7 => .Eight
  | 8 => .Nine
  | 9 => .Ten
  | 10 => .Jack
  | 11 => .Queen
  | 12 => .King
  | _ => .Joker

/-- Card struct from src/src/cards.rs: an immutable (Suit, Rank) pair. -/
structure Card where
  suit : Suit
  rank : Rank
deriving DecidableEq

/-- Card::from_ordinals. -/
def Card.from_ordinals (suit rank : Nat) : Card :=
  { suit := Suit.from_ordinal suit, rank := Rank.from_ordinal rank }

/-- Card::from_suit_and_rank. -/
def Card.from_suit_and_rank (suit : Suit) (rank : Rank) : Card :=
  { suit := suit, rank := rank }

/-- Canonical ordinal of a card, `suit_ordinal*13 + rank_ordinal`,
as used by the deck-order test and the spec. -/
def Card.ordinal (c : Card) : Nat :=
  c.suit.to_ordinal * 13 + c.rank.to_ordinal

/-- Deck struct from src/src/deck.rs: a VecDeque of cards, modelled as a
list whose head is the front of the queue. -/
structure Deck where
  cards : List Card
deriving DecidableEq

/-- Deck::default / Deck::new: the 52 standard cards, pushed back in
order Card::from_ordinals(i/13, i%13) for i in 0..52. -/
def Deck.new : Deck :=
  { cards := (List.range 52).map (fun i => Card.from_ordinals (i / 13) (i % 13)) }

/-- Deck::new_empty. -/
def Deck.new_empty : Deck := { cards := [] }

/-- Deck::draw: pop_back, removing the card at the end, returning none
(an explicit result, not a panic) when the deck is empty. -/
def Deck.draw (d : Deck) : Option (Card × Deck) :=
  match d.cards.getLast? with
  | Option.none => Option.none
  | some c => some (c, { cards := d.cards.dropLast })

/-- Deck::draw_nth: VecDeque::remove(n), removing the card at position n
from the front and closing the gap; none (an explicit result) when n is
out of range. -/
def Deck.draw_nth (d : Deck) (n : Nat) : Option (Card × Deck) :=
  if h : n < d.cards.length then
    some (d.cards.get ⟨n, h⟩, { cards := d.cards.eraseIdx n })
  else
    Option.none

/-- Deck::add: push_back. -/
def Deck.add (d : Deck) (c : Card) : Deck := { cards := d.cards ++ [c] }

/-- Deck::add_deck: appends all of the other deck's cards, leaving the
other deck empty; returns (self, other) after the move. -/
def Deck.add_deck (d other : Deck) : Deck × Deck :=
  ({ cards := d.cards ++ other.cards }, { cards := [] })

/-- Deck::len. -/
def Deck.len (d : Deck) : Nat := d.cards.length

/-- HandTotal struct from the blackjack example: a pair of u8 sums. -/
structure HandTotal where
  hard_total : Nat
  soft_total : Nat
deriving DecidableEq

/-- AddAssign for HandTotal: pointwise u8 addition, with u8 wrap-around
modelled as % 256. -/
def HandTotal.add_assign (a b : HandTotal) : HandTotal :=
  { hard_total := (a.hard_total + b.hard_total) % 256,
    soft_total := (a.soft_total + b.soft_total) % 256 }

/-- HandTotal::get_best_total: min of the totals when hard_total busts,
max otherwise. -/
def HandTotal.get_best_total (t : HandTotal) : Nat :=
  if t.hard_total > 21 then
    min t.hard_total t.soft_total
  else
    max t.hard_total t.soft_total

/-- HandResult enum from the blackjack example. -/
inductive HandResult
  | DealerWins (is_blackjack : Bool)
  | PlayerWins (is_blackjack : Bool)
  | Push
deriving DecidableEq

/-- BlackjackEvaluator::get_card_value; none models the panic on a
Joker. -/
def get_card_value (card : Card) : Option HandTotal :=
  match card.rank with
  | .Ace => some { hard_total := 11, soft_total := 1 }
  | .Ten => some { hard_total := 10, soft_total := 10 }
  | .Jack => some { hard_total := 10, soft_total := 10 }
  | .Queen => some { hard_total := 10, soft_total := 10 }
  | .King => some { hard_total := 10, soft_total := 10 }
  | .Joker => Option.none
  | r => some { hard_total := r.to_ordinal + 1, soft_total := r.to_ordinal + 1 }

/-- Accumulation loop of BlackjackEvaluator::hand_value; none propagates
the Joker panic. -/
def hand_value_go : HandTotal → List Card → Option HandTotal
  | acc, [] => some acc
  | acc, c :: rest =>
    match get_card_value c with
    | Option.none => Option.none
    | some v => hand_value_go (acc.add_assign v) rest

/-- BlackjackEvaluator::hand_value: folds get_card_value over the hand
starting from HandTotal::default() = (0, 0). -/
def hand_value (hand : List Card) : Option HandTotal :=
  hand_value_go { hard_total := 0, soft_total := 0 } hand

/-- BlackjackEvaluator::compare_hands; none propagates the Joker panic
from hand_value. -/
def compare_hands (player dealer : List Card) : Option HandResult :=
  match hand_value player, hand_value dealer with
  | some player_total, some dealer_total =>
    if player.length = 2 ∧ player_total.get_best_total = 21 then
      if dealer.length = 2 ∧ dealer_total.get_best_total = 21 then
        some .Push
      else
        some (.PlayerWins true)
    else if dealer.length = 2 ∧ dealer_total.get_best_total = 21 then
      if player.length = 2 ∧ player_total.get_best_total = 21 then
        some .Push
      else
        some (.DealerWins true)
    else
      let p := player_total.get_best_total
      let d := dealer_total.get_best_total
      if p > 21 then
        some (.DealerWins false)
      else if p > d then
        some (.PlayerWins false)
      else if p < d then
        some (.DealerWins false)
      else
        some .Push
  | _, _ => Option.none

/-- BlackjackBox from the blackjack example.  The source also declares a
`child_box: Vec<Option<BlackjackBox>>` field, but no operation ever reads
or writes it (it stays the empty Vec), so it is omitted here. -/
structure BlackjackBox where
  cards : List Card
deriving DecidableEq

/-- BlackjackTable state: the shoe, the player boxes and the dealer's
cards.  The config fields other than num_boxes (which is boxes.length)
never influence the dealing/drawing operations modelled here, so the
config is omitted. -/
structure BlackjackTable where
  deck : Deck
  boxes : List BlackjackBox
  dealer : List Card
deriving DecidableEq

/-- Width of usize (64-bit targets): machine arithmetic wraps mod this. -/
def USIZE : Nat := 2 ^ 64

/-- BlackjackTable::draw_card.  The source computes
`rand::random::<usize>() & self.deck.len()-1` — by Rust precedence,
`random & (len - 1)` — and removes the card at that position via
draw_nth.  The usize subtraction `len - 1` wraps mod 2^64 when len = 0
(release semantics).  The random value r is the usize produced by the
global RNG, passed explicitly.  Returns none (an explicit result, not a
panic) when draw_nth misses. -/
def BlackjackTable.draw_card (r : Nat) (t : BlackjackTable) : Option (Card × BlackjackTable) :=
  let index := Nat.land r ((t.deck.len + (USIZE - 1)) % USIZE)
  match t.deck.draw_nth index with
  | Option.none => Option.none
  | some (c, d) => some (c, { t with deck := d })

/-- BlackjackTable::draw_card_for_box.  The source unwraps draw_card and
indexes boxes[index]; none models either panic (empty shoe, or an
out-of-range box index). -/
def BlackjackTable.draw_card_for_box (r : Nat) (t : BlackjackTable) (index : Nat) :
    Option BlackjackTable :=
  match t.draw_card r with
  | Option.none => Option.none
  | some (card, t') =>
    if index < t'.boxes.length then
      some { t' with
        boxes := t'.boxes.set index { cards := (t'.boxes.getD index ⟨[]⟩).cards ++ [card] } }
    else
      Option.none

/-- BlackjackTable::draw_card_for_dealer; none models the unwrap panic on
an exhausted shoe. -/
def BlackjackTable.draw_card_for_dealer (r : Nat) (t : BlackjackTable) :
    Option BlackjackTable :=
  match t.draw_card r with
  | Option.none => Option.none
  | some (card, t') => some { t' with dealer := t'.dealer ++ [card] }

/-- Loop body of BlackjackTable::deal_cards: k iterations remain, i is
the loop counter, num_boxes is the boxes.len()+1 computed once at entry.
Each iteration draws a card with the next random usize rs i and pushes it
to box (i % num_boxes), or to the dealer when that residue names the last
(dealer) slot.  none models the unwrap panic on an exhausted shoe. -/
def deal_cards_go (rs : Nat → Nat) (num_boxes : Nat) :
    Nat → Nat → BlackjackTable → Option BlackjackTable
  | 0, _, t => some t
  | k + 1, i, t =>
    match t.draw_card (rs i) with
    | Option.none => Option.none
    | some (card, t') =>
      let box_num := i % num_boxes
      if box_num < num_boxes - 1 then
        deal_cards_go rs num_boxes k (i + 1)
          { t' with
            boxes := t'.boxes.set box_num
              { cards := (t'.boxes.getD box_num ⟨[]⟩).cards ++ [card] } }
      else
        deal_cards_go rs num_boxes k (i + 1) { t' with dealer := t'.dealer ++ [card] }

/-- BlackjackTable::deal_cards: `num_boxes = boxes.len() + 1` (the dealer
counts as a box), then `for i in 0..(num_boxes*2-1)` deal one card per
iteration. -/
def BlackjackTable.deal_cards (rs : Nat → Nat) (t : BlackjackTable) :
    Option BlackjackTable :=
  let num_boxes := t.boxes.length + 1
  deal_cards_go rs num_boxes (num_boxes * 2 - 1) 0 t

/-- Number of cards in box j of a table (empty for an out-of-range j);
used to state the dealing theorems. -/
def BlackjackTable.box_len (t : BlackjackTable) (j : Nat) : Nat :=
  (t.boxes.getD j ⟨[]⟩).cards.length

/-- A hand is Joker-free when no card in it has the sentinel rank. -/
def joker_free (hand : List Card) : Prop :=
  ∀ c ∈ hand, c.rank ≠ Rank.Joker

instance (hand : List Card) : Decidable (joker_free hand) := by
  unfold joker_free
  infer_instance

/-- Iterate Deck::draw n times, collecting the drawn cards in draw
order; a failed draw stops the iteration. -/
def draw_all : Nat → Deck → List Card × Deck
  | 0, d => ([], d)
  | n + 1, d =>
    match d.draw with
    | Option.none => ([], d)
    | some (c, d') =>
      let rest := draw_all n d'
      (c :: rest.1, rest.2)

/-- Hard value a non-Joker card contributes (projection of
get_card_value; the Joker row is arbitrary and never used under
joker_free). -/
def hard_val (c : Card) : Nat :=
  match c.rank with
  | .Ace => 11
  | .Ten => 10
  | .Jack => 10
  | .Queen => 10
  | .King => 10
  | .Joker => 0
  | r => r.to_ordinal + 1

/-- Soft value a non-Joker card contributes (projection of
get_card_value). -/
def soft_val (c : Card) : Nat :=
  match c.rank with
  | .Ace => 1
  | .Ten => 10
  | .Jack => 10
  | .Queen => 10
  | .King => 10
  | .Joker => 0
  | r => r.to_ordinal + 1

/-- Number of loop steps among the next k (starting at loop counter i)
whose residue mod N is j; counts how often the deal loop targets slot j. -/
def res_count (N : Nat) : Nat → Nat → Nat → Nat
  | 0, _, _ => 0
  | k + 1, i, j => (if i % N = j then 1 else 0) + res_count N k (i + 1) j

/-- Player hand Ace of clubs, King of hearts: a natural 21. -/
def hand_ace_king : List Card :=
  [Card.from_suit_and_rank .Clubs .Ace, Card.from_suit_and_rank .Hearts .King]

/-- Dealer hand Nine of diamonds, Seven of hearts, Five of spades: an
ordinary three-card 21. -/
def hand_nine_seven_five : List Card :=
  [Card.from_suit_and_rank .Diamonds .Nine, Card.from_suit_and_rank .Hearts .Seven,
    Card.from_suit_and_rank .Spades .Five]

/-- Dealer hand Nine of diamonds, Eight of hearts: 17. -/
def hand_nine_eight : List Card :=
  [Card.from_suit_and_rank .Diamonds .Nine, Card.from_suit_and_rank .Hearts .Eight]

/-- Player hand Ten of spades, Nine of hearts: 19, no natural. -/
def hand_ten_nine : List Card :=
  [Card.from_suit_and_rank .Spades .Ten, Card.from_suit_and_rank .Hearts .Nine]

/-- Dealer hand Ten of clubs, Ten of diamonds, Five of spades: hard 25,
soft 25 — a busted dealer. -/
def hand_ten_ten_five : List Card :=
  [Card.from_suit_and_rank .Clubs .Ten, Card.from_suit_and_rank .Diamonds .Ten,
    Card.from_suit_and_rank .Spades .Five]

/-- Hand of two Aces (clubs, hearts). -/
def hand_two_aces : List Card :=
  [Card.from_suit_and_rank .Clubs .Ace, Card.from_suit_and_rank .Hearts .Ace]

/-- A table whose shoe is empty: one empty box, empty dealer hand. -/
def empty_shoe_table : BlackjackTable :=
  { deck := Deck.new_empty, boxes := [{ cards := [] }], dealer := [] }

/-- A table whose shoe holds 51 cards (a non-power-of-two length). -/
def table51 : BlackjackTable :=
  { deck := { cards := (List.range 51).map (fun i => Card.from_ordinals (i / 13) (i % 13)) },
    boxes := [{ cards := [] }], dealer := [] }

/-- A one-box table whose shoe holds exactly 3 cards. -/
def table_one_box : BlackjackTable :=
  { deck := { cards := (List.range 3).map (fun i => Card.from_ordinals 0 i) },
    boxes := [{ cards := [] }], dealer := [] }

/-!  Theorems settling the claims, and supporting lemmas.  -/

/-- C2: get_best_total returns the minimum of hard_total and soft_total
when hard_total > 21 and the maximum otherwise; the hand [Ace, Ace]
evaluates to hard 22, soft 2, and its best total is exactly 2. -/
theorem claim_C2 :
    (∀ t : HandTotal,
      (21 < t.hard_total → t.get_best_total = min t.hard_total t.soft_total) ∧
      (t.hard_total ≤ 21 → t.get_best_total = max t.hard_total t.soft_total)) ∧
    hand_value hand_two_aces = some { hard_total := 22, soft_total := 2 } ∧
    HandTotal.get_best_total { hard_total := 22, soft_total := 2 } = 2 := by
  refine ⟨fun t => ⟨fun h => ?_, fun h => ?_⟩, by decide, by decide⟩
  · unfold HandTotal.get_best_total
    rw [if_pos h]
  · unfold HandTotal.get_best_total
    rw [if_neg (by omega)]

/-- Witness for C2 at concrete totals (22, 2) and (17, 7). -/
theorem claim_C2_witness :
    HandTotal.get_best_total { hard_total := 22, soft_total := 2 } = min 22 2 ∧
    HandTotal.get_best_total { hard_total := 17, soft_total := 7 } = max 17 7 :=
  ⟨(claim_C2.1 ⟨22, 2⟩).1 (by decide), (claim_C2.1 ⟨17, 7⟩).2 (by decide)⟩

/-- C3: when the player holds a natural (exactly 2 cards, best total
21), compare_hands returns Push against a dealer natural and
PlayerWins(true) against everything else, including a dealer whose best
total is an ordinary three-or-more-card 21. -/
theorem claim_C3 (player dealer : List Card) (pt dt : HandTotal)
    (hp : hand_value player = some pt) (hd : hand_value dealer = some dt)
    (hlen : player.length = 2) (hbest : pt.get_best_total = 21) :
    compare_hands player dealer =
      some (if dealer.length = 2 ∧ dt.get_best_total = 21 then HandResult.Push
        else HandResult.PlayerWins true) := by
  simp only [compare_hands, hp, hd, if_pos (And.intro hlen hbest)]
  by_cases hc : dealer.length = 2 ∧ dt.get_best_total = 21
  · rw [if_pos hc, if_pos hc]
  · rw [if_neg hc, if_neg hc]

/-- Witness for C3: natural [A♣, K♥] beats the ordinary three-card 21
[9♦, 7♥, 5♠] with PlayerWins(true). -/
theorem claim_C3_witness :
    compare_hands hand_ace_king hand_nine_seven_five = some (HandResult.PlayerWins true) := by
  have h := claim_C3 hand_ace_king hand_nine_seven_five
    { hard_total := 21, soft_total := 11 } { hard_total := 21, soft_total := 21 }
    (by decide) (by decide) (by decide) (by decide)
  simpa using h

/-- C8: a fresh standard deck has 52 cards and no Jokers; drawing from
the end 52 times yields cards in strictly decreasing
suit_ordinal*13 + rank_ordinal order from 51 down to 0, and every draw
after that signals exhaustion. -/
theorem claim_C8 :
    Deck.new.len = 52 ∧
    Deck.new.cards.all (fun c => c.rank != Rank.Joker) = true ∧
    (draw_all 52 Deck.new).1.map Card.ordinal = (List.range 52).reverse ∧
    (draw_all 52 Deck.new).2.len = 0 ∧
    (draw_all 52 Deck.new).2.draw = Option.none := by decide

/-- C1 counterexample: player [T♠, 9♥] (best 19, no natural) versus the
busted dealer [T♣, T♦, 5♠] (best 25, no natural) satisfies every
hypothesis of the claim, yet compare_hands returns DealerWins(false),
not the claimed PlayerWins(false). -/
theorem claim_C1_counterexample :
    joker_free hand_ten_nine ∧ joker_free hand_ten_ten_five ∧
    hand_value hand_ten_nine = some { hard_total := 19, soft_total := 19 } ∧
    hand_value hand_ten_ten_five = some { hard_total := 25, soft_total := 25 } ∧
    ¬(hand_ten_nine.length = 2 ∧
      HandTotal.get_best_total { hard_total := 19, soft_total := 19 } = 21) ∧
    ¬(hand_ten_ten_five.length = 2 ∧
      HandTotal.get_best_total { hard_total := 25, soft_total := 25 } = 21) ∧
    HandTotal.get_best_total { hard_total := 19, soft_total := 19 } ≤ 21 ∧
    21 < HandTotal.get_best_total { hard_total := 25, soft_total := 25 } ∧
    compare_hands hand_ten_nine hand_ten_ten_five ≠ some (HandResult.PlayerWins false) ∧
    compare_hands hand_ten_nine hand_ten_ten_five = some (HandResult.DealerWins false) := by
  decide

/-- C1 amended: with no natural on either side, a non-busting player and
a busting dealer, compare_hands resolves by plain numeric comparison and
returns DealerWins(false) — the busted dealer wins; no dealer-bust rule
is applied. -/
theorem claim_C1_amended (player dealer : List Card) (pt dt : HandTotal)
    (hp : hand_value player = some pt) (hd : hand_value dealer = some dt)
    (hnp : ¬(player.length = 2 ∧ pt.get_best_total = 21))
    (hnd : ¬(dealer.length = 2 ∧ dt.get_best_total = 21))
    (hple : pt.get_best_total ≤ 21) (hdgt : 21 < dt.get_best_total) :
    compare_hands player dealer = some (HandResult.DealerWins false) := by
  simp only [compare_hands, hp, hd]
  rw [if_neg hnp, if_neg hnd, if_neg (show ¬(pt.get_best_total > 21) by omega),
    if_neg (show ¬(pt.get_best_total > dt.get_best_total) by omega),
    if_pos (show pt.get_best_total < dt.get_best_total by omega)]

/-- Witness for the amended C1 at [T♠, 9♥] versus [T♣, T♦, 5♠]. -/
theorem claim_C1_witness :
    compare_hands hand_ten_nine hand_ten_ten_five = some (HandResult.DealerWins false) :=
  claim_C1_amended hand_ten_nine hand_ten_ten_five
    { hard_total := 19, soft_total := 19 } { hard_total := 25, soft_total := 25 }
    (by decide) (by decide) (by decide) (by decide) (by decide) (by decide)

/-- C4: a PlayerWins(true) outcome implies the player held a two-card
hand of best total 21, a DealerWins(true) outcome implies the same of
the dealer; wins decided by ordinary total comparison never carry the
blackjack flag. -/
theorem claim_C4 (player dealer : List Card) :
    (compare_hands player dealer = some (HandResult.PlayerWins true) →
      player.length = 2 ∧ ∃ pt, hand_value player = some pt ∧ pt.get_best_total = 21) ∧
    (compare_hands player dealer = some (HandResult.DealerWins true) →
      dealer.length = 2 ∧ ∃ dt, hand_value dealer = some dt ∧ dt.get_best_total = 21) := by
  cases hp : hand_value player with
  | none =>
    constructor <;> intro h <;> simp [compare_hands, hp] at h
  | some pt =>
    cases hd : hand_value dealer with
    | none =>
      constructor <;> intro h <;> simp [compare_hands, hp, hd] at h
    | some dt =>
      constructor <;> intro h <;> simp only [compare_hands, hp, hd] at h <;>
        split_ifs at h with h1 h2 h3 h4 h5 h6 <;>
        first
          | exact ⟨h1.1, pt, rfl, h1.2⟩
          | exact ⟨h3.1, dt, rfl, h3.2⟩
          | simp at h

/-- Witness for C4: a player natural [A♣, K♥] against [9♦, 8♥] and a
dealer natural [A♣, K♥] against [T♠, 9♥]. -/
theorem claim_C4_witness :
    (hand_ace_king.length = 2 ∧
      ∃ pt, hand_value hand_ace_king = some pt ∧ pt.get_best_total = 21) ∧
    (hand_ace_king.length = 2 ∧
      ∃ dt, hand_value hand_ace_king = some dt ∧ dt.get_best_total = 21) :=
  ⟨(claim_C4 hand_ace_king hand_nine_eight).1 (by decide),
    (claim_C4 hand_ten_nine hand_ace_king).2 (by decide)⟩

/-- A non-Joker card's value is the pair of its hard and soft values. -/
theorem get_card_value_eq (c : Card) (h : c.rank ≠ Rank.Joker) :
    get_card_value c = some { hard_total := hard_val c, soft_total := soft_val c } := by
  obtain ⟨s, r⟩ := c
  cases r <;> first | rfl | exact absurd rfl h

/-- The accumulation loop of hand_value computes the wrapped sums of the
per-card hard and soft values on a Joker-free hand. -/
theorem hand_value_go_eq (hand : List Card) : ∀ acc : HandTotal, joker_free hand →
    acc.hard_total < 256 → acc.soft_total < 256 →
    hand_value_go acc hand =
      some { hard_total := (acc.hard_total + (hand.map hard_val).sum) % 256,
             soft_total := (acc.soft_total + (hand.map soft_val).sum) % 256 } := by
  induction hand with
  | nil =>
    intro acc _ hh hs
    simp [hand_value_go, Nat.mod_eq_of_lt hh, Nat.mod_eq_of_lt hs]
  | cons c rest ih =>
    intro acc hj hh hs
    have hc : c.rank ≠ Rank.Joker := hj c (by simp)
    have hrest : joker_free rest := fun x hx => hj x (by simp [hx])
    rw [show hand_value_go acc (c :: rest) =
        hand_value_go (acc.add_assign { hard_total := hard_val c, soft_total := soft_val c }) rest
      from by simp [hand_value_go, get_card_value_eq c hc]]
    rw [ih _ hrest (Nat.mod_lt _ (by norm_num)) (Nat.mod_lt _ (by norm_num))]
    simp [HandTotal.add_assign, Nat.mod_add_mod, Nat.add_assoc]

/-- hand_value of a Joker-free hand is the wrapped sum of hard values
paired with the wrapped sum of soft values. -/
theorem hand_value_eq (hand : List Card) (h : joker_free hand) :
    hand_value hand =
      some { hard_total := (hand.map hard_val).sum % 256,
             soft_total := (hand.map soft_val).sum % 256 } := by
  have hgo := hand_value_go_eq hand { hard_total := 0, soft_total := 0 } h
    (by norm_num) (by norm_num)
  simpa [hand_value] using hgo

/-- C9: hand_value is order-independent — permuting a Joker-free hand
does not change the computed HandTotal. -/
theorem claim_C9 (h1 h2 : List Card) (hj : joker_free h1) (hp : h1.Perm h2) :
    hand_value h1 = hand_value h2 := by
  have hj2 : joker_free h2 := fun c hc => hj c (hp.mem_iff.mpr hc)
  rw [hand_value_eq h1 hj, hand_value_eq h2 hj2,
    (hp.map hard_val).sum_eq, (hp.map soft_val).sum_eq]

/-- Witness for C9: [A♣, K♥] and its reversal evaluate equally. -/
theorem claim_C9_witness :
    hand_value hand_ace_king =
      hand_value [Card.from_suit_and_rank .Hearts .King, Card.from_suit_and_rank .Clubs .Ace] :=
  claim_C9 _ _ (by decide) (by decide)

/-- The hard value of a card is its soft value, plus 10 when the card is
an Ace. -/
theorem hard_soft_card (c : Card) :
    hard_val c = soft_val c + (if c.rank = Rank.Ace then 10 else 0) := by
  obtain ⟨s, r⟩ := c
  cases r <;> simp [hard_val, soft_val]

/-- Every card's hard value is at most 11. -/
theorem hard_val_le (c : Card) : hard_val c ≤ 11 := by
  obtain ⟨s, r⟩ := c
  cases r <;> norm_num [hard_val, Rank.to_ordinal]

/-- The hard sum of a hand equals its soft sum plus 10 per Ace. -/
theorem sum_hard_eq (hand : List Card) :
    (hand.map hard_val).sum =
      (hand.map soft_val).sum + 10 * hand.countP (fun c => c.rank == Rank.Ace) := by
  induction hand with
  | nil => simp
  | cons c rest ih =>
    by_cases hc : c.rank = Rank.Ace <;>
      simp [List.countP_cons, hc, ih, hard_soft_card c] <;> ring

/-- The hard sum of a hand is at most 11 per card. -/
theorem sum_hard_le (hand : List Card) : (hand.map hard_val).sum ≤ 11 * hand.length := by
  induction hand with
  | nil => simp
  | cons c rest ih =>
    have := hard_val_le c
    simp only [List.map_cons, List.sum_cons, List.length_cons]
    omega

/-- C10: on a Joker-free hand of at most 21 cards, hand_value satisfies
soft_total ≤ hard_total, with equality exactly when the hand holds no
Ace; whenever hard_total ≤ 21 the best total is the hard total. -/
theorem claim_C10 (hand : List Card) (t : HandTotal) (hj : joker_free hand)
    (hlen : hand.length ≤ 21) (hv : hand_value hand = some t) :
    t.soft_total ≤ t.hard_total ∧
    (t.soft_total = t.hard_total ↔ ∀ c ∈ hand, c.rank ≠ Rank.Ace) ∧
    (t.hard_total ≤ 21 → t.get_best_total = t.hard_total) := by
  rw [hand_value_eq hand hj] at hv
  have ht := (Option.some.inj hv).symm
  subst ht
  have hhard : (hand.map hard_val).sum < 256 := by
    have := sum_hard_le hand
    omega
  have hse := sum_hard_eq hand
  have hsoft : (hand.map soft_val).sum < 256 := by omega
  simp only [Nat.mod_eq_of_lt hhard, Nat.mod_eq_of_lt hsoft]
  refine ⟨by omega, ?_, ?_⟩
  · constructor
    · intro he
      have hcz : hand.countP (fun c => c.rank == Rank.Ace) = 0 := by omega
      intro c hcmem hca
      have := List.countP_eq_zero.mp hcz c hcmem
      simp [hca] at this
    · intro hno
      have hcz : hand.countP (fun c => c.rank == Rank.Ace) = 0 := by
        apply List.countP_eq_zero.mpr
        intro a ha
        simp [hno a ha]
      omega
  · intro hle
    unfold HandTotal.get_best_total
    simp only []
    rw [if_neg (by omega)]
    omega

/-- Witness for C10 at the hand [A♣, K♥], whose HandTotal is (21, 11). -/
theorem claim_C10_witness :
    (HandTotal.mk 21 11).soft_total ≤ (HandTotal.mk 21 11).hard_total ∧
    ((HandTotal.mk 21 11).soft_total = (HandTotal.mk 21 11).hard_total ↔
      ∀ c ∈ hand_ace_king, c.rank ≠ Rank.Ace) ∧
    ((HandTotal.mk 21 11).hard_total ≤ 21 →
      (HandTotal.mk 21 11).get_best_total = (HandTotal.mk 21 11).hard_total) :=
  claim_C10 hand_ace_king ⟨21, 11⟩ (by decide) (by decide) (by decide)

/-- On a non-empty shoe, draw_card's masked index is in range and the
draw removes exactly one card, leaving boxes and dealer untouched. -/
theorem draw_card_spec (r : Nat) (t : BlackjackTable) (h : 1 ≤ t.deck.len) :
    Nat.land r ((t.deck.len + (USIZE - 1)) % USIZE) < t.deck.len ∧
    ∃ c t', t.draw_card r = some (c, t') ∧ t'.deck.len = t.deck.len - 1 ∧
      t'.boxes = t.boxes ∧ t'.dealer = t.dealer := by
  have hidx : Nat.land r ((t.deck.len + (USIZE - 1)) % USIZE) < t.deck.len := by
    have hle : Nat.land r ((t.deck.len + (USIZE - 1)) % USIZE) ≤
        (t.deck.len + (USIZE - 1)) % USIZE := Nat.and_le_right
    by_cases hlt : t.deck.len < USIZE
    · have hmask : (t.deck.len + (USIZE - 1)) % USIZE = t.deck.len - 1 := by
        have h1 : t.deck.len + (USIZE - 1) = (t.deck.len - 1) + USIZE := by
          have : 1 ≤ USIZE := by norm_num [USIZE]
          omega
        rw [h1, Nat.add_mod_right, Nat.mod_eq_of_lt (by omega)]
      omega
    · have hmod : (t.deck.len + (USIZE - 1)) % USIZE < USIZE := Nat.mod_lt _ (by norm_num [USIZE])
      omega
  have hdn : t.deck.draw_nth (Nat.land r ((t.deck.len + (USIZE - 1)) % USIZE)) =
      some (t.deck.cards.get ⟨Nat.land r ((t.deck.len + (USIZE - 1)) % USIZE), hidx⟩,
        { cards := t.deck.cards.eraseIdx (Nat.land r ((t.deck.len + (USIZE - 1)) % USIZE)) }) :=
    dif_pos hidx
  refine ⟨hidx, t.deck.cards.get ⟨_, hidx⟩,
    { t with deck :=
        { cards := t.deck.cards.eraseIdx (Nat.land r ((t.deck.len + (USIZE - 1)) % USIZE)) } },
    ?_, ?_, rfl, rfl⟩
  · unfold BlackjackTable.draw_card
    dsimp only
    rw [hdn]
  · show (t.deck.cards.eraseIdx (Nat.land r ((t.deck.len + (USIZE - 1)) % USIZE))).length =
      t.deck.len - 1
    rw [List.length_eraseIdx]
    have hidx2 : Nat.land r ((t.deck.len + (USIZE - 1)) % USIZE) < t.deck.cards.length := hidx
    rw [if_pos hidx2]
    rfl

/-- C5: for any shoe of length ≥ 1 and any random usize, the position
draw_card computes (the random value ANDed with len-1, as a wrapping
usize subtraction) lies in [0, len), so draw_card always removes and
returns a card — in particular for non-power-of-two lengths. -/
theorem claim_C5 (r : Nat) (t : BlackjackTable) (h : 1 ≤ t.deck.len) :
    Nat.land r ((t.deck.len + (USIZE - 1)) % USIZE) < t.deck.len ∧
    ∃ c t', t.draw_card r = some (c, t') ∧ t'.deck.len = t.deck.len - 1 := by
  obtain ⟨hidx, c, t', hdraw, hlen, _, _⟩ := draw_card_spec r t h
  exact ⟨hidx, c, t', hdraw, hlen⟩

/-- Witness for C5 on a 51-card shoe (non-power-of-two length). -/
theorem claim_C5_witness :
    Nat.land 123456 ((table51.deck.len + (USIZE - 1)) % USIZE) < table51.deck.len ∧
    ∃ c t', table51.draw_card 123456 = some (c, t') ∧ t'.deck.len = table51.deck.len - 1 :=
  claim_C5 123456 table51 (by decide)

/-- C6 counterexample: on a table whose shoe is empty (the exhaustion
condition), draw_card_for_box, draw_card_for_dealer and deal_cards all
hit the unwrap panic (modelled none) instead of returning an explicit
no-card result to their caller — the source functions return () and
cannot surface the condition. -/
theorem claim_C6_counterexample :
    empty_shoe_table.deck.len = 0 ∧
    BlackjackTable.draw_card_for_box 0 empty_shoe_table 0 = Option.none ∧
    empty_shoe_table.draw_card_for_dealer 0 = Option.none ∧
    empty_shoe_table.deal_cards (fun _ => 0) = Option.none := by
  decide

/-- C6 amended: Deck::draw, Deck::draw_nth and the table's internal
draw_card surface exhaustion as an explicit no-card (none) result, but
draw_card_for_box, draw_card_for_dealer and deal_cards unwrap that
result and panic (modelled none) on an exhausted shoe rather than
surfacing it to their caller. -/
theorem claim_C6_amended :
    (∀ d : Deck, d.len = 0 → d.draw = Option.none) ∧
    (∀ (d : Deck) (n : Nat), d.len ≤ n → d.draw_nth n = Option.none) ∧
    (∀ (r : Nat) (t : BlackjackTable), t.deck.len = 0 → t.draw_card r = Option.none) ∧
    (∀ (r : Nat) (t : BlackjackTable) (i : Nat), t.deck.len = 0 →
      t.draw_card_for_box r i = Option.none) ∧
    (∀ (r : Nat) (t : BlackjackTable), t.deck.len = 0 →
      t.draw_card_for_dealer r = Option.none) ∧
    (∀ (rs : Nat → Nat) (t : BlackjackTable), t.deck.len = 0 →
      t.deal_cards rs = Option.none) := by
  have hdraw : ∀ d : Deck, d.len = 0 → d.draw = Option.none := by
    intro d h
    have hc : d.cards = [] := List.length_eq_zero.mp h
    simp [Deck.draw, hc]
  have hdrawnth : ∀ (d : Deck) (n : Nat), d.len ≤ n → d.draw_nth n = Option.none := by
    intro d n h
    unfold Deck.draw_nth
    rw [dif_neg (by unfold Deck.len at h; omega)]
  have hdc : ∀ (r : Nat) (t : BlackjackTable), t.deck.len = 0 → t.draw_card r = Option.none := by
    intro r t h
    unfold BlackjackTable.draw_card
    dsimp only
    rw [hdrawnth _ _ (by omega)]
  have hbox : ∀ (r : Nat) (t : BlackjackTable) (i : Nat), t.deck.len = 0 →
      t.draw_card_for_box r i = Option.none := by
    intro r t i h
    unfold BlackjackTable.draw_card_for_box
    rw [hdc _ _ h]
  have hdealer : ∀ (r : Nat) (t : BlackjackTable), t.deck.len = 0 →
      t.draw_card_for_dealer r = Option.none := by
    intro r t h
    unfold BlackjackTable.draw_card_for_dealer
    rw [hdc _ _ h]
  have hdeal : ∀ (rs : Nat → Nat) (t : BlackjackTable), t.deck.len = 0 →
      t.deal_cards rs = Option.none := by
    intro rs t h
    unfold BlackjackTable.deal_cards
    dsimp only
    have hk : (t.boxes.length + 1) * 2 - 1 = t.boxes.length * 2 + 1 := by omega
    rw [hk]
    simp [deal_cards_go, hdc _ _ h]
  exact ⟨hdraw, hdrawnth, hdc, hbox, hdealer, hdeal⟩

/-- Witness for the amended C6 on an empty deck and an empty-shoe table. -/
theorem claim_C6_witness :
    Deck.new_empty.draw = Option.none ∧
    Deck.new_empty.draw_nth 5 = Option.none ∧
    empty_shoe_table.draw_card 7 = Option.none ∧
    BlackjackTable.draw_card_for_box 7 empty_shoe_table 0 = Option.none ∧
    empty_shoe_table.draw_card_for_dealer 7 = Option.none ∧
    empty_shoe_table.deal_cards (fun _ => 7) = Option.none :=
  ⟨claim_C6_amended.1 _ rfl, claim_C6_amended.2.1 _ 5 (by decide),
    claim_C6_amended.2.2.1 7 _ rfl, claim_C6_amended.2.2.2.1 7 _ 0 rfl,
    claim_C6_amended.2.2.2.2.1 7 _ rfl, claim_C6_amended.2.2.2.2.2 _ _ rfl⟩

/-- Splitting a run of loop steps splits the residue count. -/
theorem res_count_split (N a b i j : Nat) :
    res_count N (a + b) i j = res_count N a i j + res_count N b (i + a) j := by
  induction a generalizing i with
  | zero => simp [res_count]
  | succ a ih =>
    have h1 : a + 1 + b = (a + b) + 1 := by omega
    rw [h1]
    simp only [res_count]
    rw [ih (i + 1)]
    have h2 : i + 1 + a = i + (a + 1) := by omega
    rw [h2]
    omega

/-- Inside one block of at most N steps no residue repeats: slot j is
hit once if it lies in the step range, otherwise not at all. -/
theorem res_count_within (N : Nat) : ∀ (m i j : Nat), i + m ≤ N →
    res_count N m i j = if i ≤ j ∧ j < i + m then 1 else 0 := by
  intro m
  induction m with
  | zero =>
    intro i j h
    simp only [res_count]
    rw [if_neg (by omega)]
  | succ m ih =>
    intro i j h
    simp only [res_count]
    rw [Nat.mod_eq_of_lt (show i < N by omega), ih (i + 1) j (by omega)]
    split_ifs <;> omega

/-- Residue counts are invariant under shifting the start by N. -/
theorem res_count_shift (N m : Nat) : ∀ (i j : Nat),
    res_count N m (i + N) j = res_count N m i j := by
  induction m with
  | zero => intro i j; simp [res_count]
  | succ m ih =>
    intro i j
    simp only [res_count]
    rw [Nat.add_mod_right]
    have h1 : i + N + 1 = (i + 1) + N := by omega
    rw [h1, ih (i + 1) j]

/-- Over the 2N-1 steps of the deal loop, every slot except the last
(dealer) one is hit exactly twice and the last exactly once. -/
theorem res_count_total (N j : Nat) (hN : 2 ≤ N) (hjlt : j < N) :
    res_count N (2 * N - 1) 0 j = if j < N - 1 then 2 else 1 := by
  have hsplit : 2 * N - 1 = N + (N - 1) := by omega
  rw [hsplit, res_count_split N N (N - 1) 0 j, res_count_shift N (N - 1) 0 j,
    res_count_within N N 0 j (by omega), res_count_within N (N - 1) 0 j (by omega)]
  split_ifs <;> omega

/-- Reading back the box just written by List.set. -/
theorem box_getD_set_self (l : List BlackjackBox) (m : Nat) (b : BlackjackBox)
    (h : m < l.length) : (l.set m b).getD m ⟨[]⟩ = b := by
  simp [List.getD_eq_getElem?_getD, List.getElem?_set, h]

/-- Reading any other box is unaffected by List.set. -/
theorem box_getD_set_other (l : List BlackjackBox) (m j : Nat) (b : BlackjackBox)
    (h : m ≠ j) : (l.set m b).getD j ⟨[]⟩ = l.getD j ⟨[]⟩ := by
  simp [List.getD_eq_getElem?_getD, List.getElem?_set, h]

/-- Invariant of the deal loop: running k remaining steps from loop
counter i removes k cards from the shoe and grows each box and the
dealer hand by the number of steps whose residue mod N targets it. -/
theorem deal_cards_go_spec (rs : Nat → Nat) (N : Nat) :
    ∀ (k i : Nat) (t : BlackjackTable), N = t.boxes.length + 1 → k ≤ t.deck.len →
    ∃ t', deal_cards_go rs N k i t = some t' ∧
      t'.deck.len = t.deck.len - k ∧
      t'.boxes.length = t.boxes.length ∧
      (∀ j, j < t.boxes.length → t'.box_len j = t.box_len j + res_count N k i j) ∧
      t'.dealer.length = t.dealer.length + res_count N k i (N - 1) := by
  intro k
  induction k with
  | zero =>
    intro i t hN hk
    exact ⟨t, rfl, by omega, rfl, fun j hj => by simp [res_count], by simp [res_count]⟩
  | succ k ih =>
    intro i t hN hk
    obtain ⟨hidx, c, t1, hdraw, hlen1, hboxes1, hdealer1⟩ := draw_card_spec (rs i) t (by omega)
    obtain ⟨d1, b1, dl1⟩ := t1
    simp only at hlen1 hboxes1 hdealer1
    subst hboxes1
    subst hdealer1
    have hNpos : 0 < N := by omega
    have hmod : i % N < N := Nat.mod_lt i hNpos
    by_cases hb : i % N < N - 1
    · -- the step targets box (i % N)
      have hbl : i % N < t.boxes.length := by omega
      obtain ⟨t', hgo, hlen, hblen, hbox, hdeal⟩ := ih (i + 1)
        ⟨d1, t.boxes.set (i % N) ⟨(t.boxes.getD (i % N) ⟨[]⟩).cards ++ [c]⟩, t.dealer⟩
        (by simp [List.length_set]; omega) (by simp [Deck.len] at hlen1 hk ⊢; omega)
      simp only [List.length_set] at hblen
      refine ⟨t', ?_, ?_, ?_, ?_, ?_⟩
      · simp only [deal_cards_go, hdraw]
        rw [if_pos hb]
        exact hgo
      · simp only at hlen
        omega
      · omega
      · intro j hj
        have hstep := hbox j (by simpa [List.length_set] using hj)
        simp only [BlackjackTable.box_len] at hstep ⊢
        simp only [res_count]
        by_cases hij : i % N = j
        · subst hij
          rw [box_getD_set_self _ _ _ hbl] at hstep
          simp only [List.length_append, List.length_cons, List.length_nil] at hstep
          rw [if_pos rfl]
          omega
        · rw [box_getD_set_other _ _ _ _ hij] at hstep
          rw [if_neg hij]
          omega
      · simp only at hdeal
        simp only [res_count]
        rw [if_neg (by omega)]
        omega
    · -- the step targets the dealer
      have hieq : i % N = N - 1 := by omega
      obtain ⟨t', hgo, hlen, hblen, hbox, hdeal⟩ := ih (i + 1)
        ⟨d1, t.boxes, t.dealer ++ [c]⟩
        (by simpa using hN) (by simp [Deck.len] at hlen1 hk ⊢; omega)
      refine ⟨t', ?_, ?_, ?_, ?_, ?_⟩
      · simp only [deal_cards_go, hdraw]
        rw [if_neg hb]
        exact hgo
      · simp only at hlen
        omega
      · simpa using hblen
      · intro j hj
        have hstep := hbox j (by simpa using hj)
        simp only [BlackjackTable.box_len] at hstep ⊢
        simp only [res_count]
        rw [if_neg (by omega)]
        omega
      · simp only [List.length_append, List.length_cons, List.length_nil] at hdeal
        simp only [res_count]
        rw [if_pos hieq]
        omega

/-- C7: on a table with at least one box and a shoe of at least
2*num_boxes + 1 cards, deal_cards removes exactly 2*num_boxes + 1 cards
from the shoe, distributing them round-robin (box 0..num_boxes-1 then
the dealer, repeated, the final dealer card of the second pass omitted),
so every box gains exactly 2 cards and the dealer exactly 1. -/
theorem claim_C7 (rs : Nat → Nat) (t : BlackjackTable)
    (hboxes : 1 ≤ t.boxes.length) (hdeck : 2 * t.boxes.length + 1 ≤ t.deck.len) :
    ∃ t', t.deal_cards rs = some t' ∧
      t'.deck.len = t.deck.len - (2 * t.boxes.length + 1) ∧
      t'.boxes.length = t.boxes.length ∧
      (∀ j, j < t.boxes.length → t'.box_len j = t.box_len j + 2) ∧
      t'.dealer.length = t.dealer.length + 1 := by
  obtain ⟨t', hgo, hlen, hblen, hbox, hdeal⟩ := deal_cards_go_spec rs (t.boxes.length + 1)
    ((t.boxes.length + 1) * 2 - 1) 0 t rfl (by omega)
  have hkk : (t.boxes.length + 1) * 2 - 1 = 2 * (t.boxes.length + 1) - 1 := by omega
  rw [hkk] at hbox hdeal
  refine ⟨t', ?_, ?_, hblen, ?_, ?_⟩
  · exact hgo
  · omega
  · intro j hj
    have hstep := hbox j hj
    rw [res_count_total (t.boxes.length + 1) j (by omega) (by omega),
      if_pos (by omega)] at hstep
    exact hstep
  · rw [res_count_total (t.boxes.length + 1) (t.boxes.length + 1 - 1) (by omega) (by omega),
      if_neg (by omega)] at hdeal
    exact hdeal

/-- Witness for C7: a one-box table over a 3-card shoe deals 3 cards. -/
theorem claim_C7_witness :
    ∃ t', table_one_box.deal_cards (fun _ => 0) = some t' ∧
      t'.deck.len = table_one_box.deck.len - (2 * table_one_box.boxes.length + 1) ∧
      t'.boxes.length = table_one_box.boxes.length ∧
      (∀ j, j < table_one_box.boxes.length →
        t'.box_len j = table_one_box.box_len j + 2) ∧
      t'.dealer.length = table_one_box.dealer.length + 1 :=
  claim_C7 (fun _ => 0) table_one_box (by decide) (by decide)

end CardCore
